import Mathlib

/-!
Shallow embedding of the sqep-lite sealing library (src/src/lite.rs,
src/src/cipher.rs, src/src/lib.rs).

Bytes are modelled as `Nat` (values below 256 in every run of the real
program), byte strings as `List Nat`.  The external cryptographic
collaborators that the crate calls (ring HKDF, ring ChaCha20-Poly1305
AEAD, the rand_chacha ChaCha20 generator, sha2 SHA-256) are modelled
abstractly as a `Prims` record: the repository code only composes them,
and the specification treats them as trusted external building blocks.
The record carries the interface facts the crate relies on: AEAD
seal/open round-trip, the appended 16-byte tag, rejection of inputs
shorter than one tag, and the 32-byte HKDF-expand output.

Environment inputs (the random nonce drawn at seal time and the unix
timestamp) are passed as explicit arguments to `encrypt_with_meta`;
everything else is a pure function of its inputs, as in the source.
-/

/-- Byte length of a nonce (`NONCE_LEN` in both Rust modules). -/
def NONCE_LEN : Nat := 12

/-- Byte length of a secret key (`KEY_LEN` in both Rust modules). -/
def KEY_LEN : Nat := 32

/-- Byte length of the ChaCha20-Poly1305 authentication tag
(`aead::CHACHA20_POLY1305.tag_len()`). -/
def TAG_LEN : Nat := 16

/-- The HKDF domain-separation label `QT_DOMAIN = b"SQEP:LITE:QT:v1"`
from lite.rs, as its ASCII bytes. -/
def QT_DOMAIN : List Nat :=
  [83, 81, 69, 80, 58, 76, 73, 84, 69, 58, 81, 84, 58, 118, 49]

/-- Abstract interface of the external cryptographic collaborators
consumed by the crate, together with the facts the crate relies on.
`aeadSeal key nonce aad msg` returns ciphertext-with-appended-tag;
`aeadOpen key nonce aad ct` verifies and strips the tag.  `chachaWord i`
is the i-th `next_u32` output of a ChaCha20 generator for a given seed.
The proof fields state: HKDF-expand yields a 32-byte seed, sealing
appends exactly one 16-byte tag, opening a sealed message under the
same key/nonce/aad recovers it, and opening any input shorter than one
tag fails (as ring's `open_in_place` does). -/
structure Prims where
  hkdfExtract : List Nat → List Nat → List Nat
  hkdfExpand : List Nat → List Nat → List Nat
  chachaWord : List Nat → Nat → Nat
  aeadSeal : List Nat → List Nat → List Nat → List Nat → List Nat
  aeadOpen : List Nat → List Nat → List Nat → List Nat → Option (List Nat)
  sha256 : List Nat → List Nat
  expand_len : ∀ prk info, (hkdfExpand prk info).length = 32
  seal_len : ∀ k n aad m, (aeadSeal k n aad m).length = m.length + TAG_LEN
  open_seal : ∀ k n aad m, aeadOpen k n aad (aeadSeal k n aad m) = some m
  open_short : ∀ k n aad c, c.length < TAG_LEN → aeadOpen k n aad c = none

/-- The four little-endian bytes of a 32-bit word
(`rng.next_u32().to_le_bytes()` in lite.rs). -/
def leBytes4 (w : Nat) : List Nat :=
  [w % 256, w / 256 % 256, w / 65536 % 256, w / 16777216 % 256]

/-- The keystream-filling loop of `qt_xor_keyed` in lite.rs: starting at
word index `wi` with `rem` bytes still to produce, draw the next 32-bit
word from the generator and copy `min 4 rem` of its little-endian bytes,
until the requested length is reached. -/
def ksFill (word : Nat → Nat) (wi rem : Nat) : List Nat :=
  if _h : rem = 0 then []
  else (leBytes4 (word wi)).take (min 4 rem) ++ ksFill word (wi + 1) (rem - min 4 rem)
termination_by rem
decreasing_by omega

/-- The keystream derivation inside `qt_xor_keyed` (lite.rs lines
154-175): HKDF-extract with the nonce as salt and the key as input
keying material, HKDF-expand under `QT_DOMAIN` to a 32-byte seed, then
`len` bytes of a ChaCha20 generator seeded with it, in generation
order. -/
def qtKeystream (P : Prims) (key32 nonce12 : List Nat) (len : Nat) : List Nat :=
  let prk := P.hkdfExtract nonce12 key32
  let seed := P.hkdfExpand prk QT_DOMAIN
  ksFill (P.chachaWord seed) 0 len

/-- `qt_xor_keyed(data, key32, nonce12)` from lite.rs: XOR `data`
byte-for-byte with the derived keystream
(`data.iter().zip(ks.iter()).map(|(a, b)| a ^ b).collect()`). -/
def qt_xor_keyed (P : Prims) (data key32 nonce12 : List Nat) : List Nat :=
  let ks := qtKeystream P key32 nonce12 data.length
  (data.zip ks).map (fun ab => Nat.xor ab.1 ab.2)

/-- One lowercase hexadecimal digit. -/
def hexChar (n : Nat) : Char :=
  if n < 10 then Char.ofNat (48 + n) else Char.ofNat (97 + (n - 10))

/-- Lowercase hex encoding of a byte string, two digits per byte: the
model of `format!("\x7b:x\x7d", Sha256::digest(..))`. -/
def hexOfBytes (bs : List Nat) : String :=
  String.mk (bs.flatMap (fun b => [hexChar (b / 16 % 16), hexChar (b % 16)]))

/-- `SealMeta` from lite.rs / cipher.rs: seal-time unix timestamp and
hex SHA-256 digest of the full frame. -/
structure SealMeta where
  timestamp : Nat
  hash : String

namespace Lite

/-- `HEADER_MAGIC = b"SQEP4.0-LITE"` from lite.rs, as ASCII bytes. -/
def HEADER_MAGIC : List Nat :=
  [83, 81, 69, 80, 52, 46, 48, 45, 76, 73, 84, 69]

/-- `ZeroshieldCipher::encrypt_with_meta` from lite.rs.  The random
nonce and the clock reading are environment inputs, passed explicitly:
mask the plaintext with `qt_xor_keyed`, AEAD-seal the masked bytes with
empty associated data, frame as `HEADER_MAGIC || nonce || ct+tag`, and
return the frame with its `SealMeta`. -/
def encrypt_with_meta (P : Prims) (key nonce_bytes : List Nat) (timestamp : Nat)
    (plaintext : List Nat) : List Nat × SealMeta :=
  let in_out := qt_xor_keyed P plaintext key nonce_bytes
  let sealed := P.aeadSeal key nonce_bytes [] in_out
  let full := HEADER_MAGIC ++ nonce_bytes ++ sealed
  (full, ⟨timestamp, hexOfBytes (P.sha256 full)⟩)

/-- `ZeroshieldCipher::decrypt` from lite.rs.  The length guard, the
header comparison, the nonce/ciphertext split, the
`Nonce::try_assume_unique_for_key` length check (which fails exactly
when the slice is not 12 bytes), the AEAD open, and the final unmask
are translated branch for branch. -/
def decrypt (P : Prims) (key ciphertext : List Nat) : Except String (List Nat) :=
  if ciphertext.length < HEADER_MAGIC.length + NONCE_LEN then
    Except.error "Ciphertext too short"
  else
    let header := ciphertext.take HEADER_MAGIC.length
    let rest := ciphertext.drop HEADER_MAGIC.length
    if header ≠ HEADER_MAGIC then Except.error "Invalid header"
    else
      let nonce_bytes := rest.take NONCE_LEN
      let encrypted_data := rest.drop NONCE_LEN
      if nonce_bytes.length ≠ NONCE_LEN then Except.error "Nonce error"
      else
        match P.aeadOpen key nonce_bytes [] encrypted_data with
        | none => Except.error "Decryption failed"
        | some decrypted => Except.ok (qt_xor_keyed P decrypted key nonce_bytes)

end Lite

namespace Cipher

/-- `HEADER_MAGIC = b"SQEP3.9"` from cipher.rs, as ASCII bytes. -/
def HEADER_MAGIC : List Nat := [83, 81, 69, 80, 51, 46, 57]

/-- `ZeroshieldCipher::encrypt_with_meta` from cipher.rs.  Note the
source resizes the plaintext buffer to `len + tag_len` with zero bytes
BEFORE calling `seal_in_place_append_tag`, so the AEAD input is the
plaintext followed by 16 zero bytes; the tag is then appended on top. -/
def encrypt_with_meta (P : Prims) (key nonce_bytes : List Nat) (timestamp : Nat)
    (plaintext : List Nat) : List Nat × SealMeta :=
  let in_out := plaintext ++ List.replicate TAG_LEN 0
  let sealed := P.aeadSeal key nonce_bytes [] in_out
  let full := HEADER_MAGIC ++ nonce_bytes ++ sealed
  (full, ⟨timestamp, hexOfBytes (P.sha256 full)⟩)

/-- `ZeroshieldCipher::decrypt` from cipher.rs: identical to the lite
module's decrypt except for the header constant and the absence of the
final `qt_xor_keyed` unmask. -/
def decrypt (P : Prims) (key ciphertext : List Nat) : Except String (List Nat) :=
  if ciphertext.length < HEADER_MAGIC.length + NONCE_LEN then
    Except.error "Ciphertext too short"
  else
    let header := ciphertext.take HEADER_MAGIC.length
    let rest := ciphertext.drop HEADER_MAGIC.length
    if header ≠ HEADER_MAGIC then Except.error "Invalid header"
    else
      let nonce_bytes := rest.take NONCE_LEN
      let encrypted_data := rest.drop NONCE_LEN
      if nonce_bytes.length ≠ NONCE_LEN then Except.error "Nonce error"
      else
        match P.aeadOpen key nonce_bytes [] encrypted_data with
        | none => Except.error "Decryption failed"
        | some decrypted => Except.ok decrypted

end Cipher

/-! ### A concrete instance of the collaborator interface

Used only to evaluate the embedded functions on concrete inputs; any
instance satisfying the interface facts would do. -/

/-- A toy 16-byte authentication tag over key, nonce, aad and message. -/
def toyTag (k n aad m : List Nat) : List Nat :=
  List.replicate TAG_LEN ((k.sum + n.sum + aad.sum + m.sum + m.length) % 256)

/-- Toy AEAD seal: append the toy tag. -/
def toySeal (k n aad m : List Nat) : List Nat := m ++ toyTag k n aad m

/-- Toy AEAD open: reject inputs shorter than one tag, strip the tag,
recompute and compare it. -/
def toyOpen (k n aad c : List Nat) : Option (List Nat) :=
  if c.length < TAG_LEN then none
  else if c.drop (c.length - TAG_LEN) = toyTag k n aad (c.take (c.length - TAG_LEN)) then
    some (c.take (c.length - TAG_LEN))
  else none

theorem toySeal_length (k n aad m : List Nat) :
    (toySeal k n aad m).length = m.length + TAG_LEN := by
  simp [toySeal, toyTag]

theorem toyOpen_toySeal (k n aad m : List Nat) :
    toyOpen k n aad (toySeal k n aad m) = some m := by
  have hlen : (toySeal k n aad m).length = m.length + TAG_LEN := toySeal_length k n aad m
  have hsub : (toySeal k n aad m).length - TAG_LEN = m.length := by omega
  have htake : (toySeal k n aad m).take ((toySeal k n aad m).length - TAG_LEN) = m := by
    rw [hsub]; exact List.take_left' rfl
  have hdrop : (toySeal k n aad m).drop ((toySeal k n aad m).length - TAG_LEN)
      = toyTag k n aad m := by
    rw [hsub]; exact List.drop_left' rfl
  rw [toyOpen, if_neg (by omega), htake, hdrop, if_pos rfl]

theorem toyOpen_short (k n aad c : List Nat) (h : c.length < TAG_LEN) :
    toyOpen k n aad c = none := by
  rw [toyOpen, if_pos h]

/-- A concrete `Prims` instance (fields in declaration order:
hkdfExtract, hkdfExpand, chachaWord, aeadSeal, aeadOpen, sha256, then
the four interface facts). -/
def toyPrims : Prims :=
  ⟨fun salt ikm => salt ++ ikm,
   fun _prk _info => List.replicate 32 0,
   fun seed i => (seed.sum + i) % 4294967296,
   toySeal,
   toyOpen,
   fun bs => List.replicate 32 (bs.sum % 256),
   fun _prk _info => by simp,
   toySeal_length,
   toyOpen_toySeal,
   toyOpen_short⟩

/-! ### Core lemmas about the keystream and the mask -/

theorem ksFill_length (word : Nat → Nat) :
    ∀ rem wi, (ksFill word wi rem).length = rem := by
  intro rem
  induction rem using Nat.strong_induction_on with
  | _ rem ih =>
    intro wi
    rw [ksFill]
    by_cases h : rem = 0
    · simp [h]
    · rw [dif_neg h]
      rw [List.length_append, List.length_take, ih (rem - min 4 rem) (by omega) (wi + 1)]
      simp only [leBytes4, List.length_cons, List.length_nil]
      omega

theorem qtKeystream_length (P : Prims) (key32 nonce12 : List Nat) (len : Nat) :
    (qtKeystream P key32 nonce12 len).length = len :=
  ksFill_length _ len 0

theorem qt_xor_keyed_length (P : Prims) (data key32 nonce12 : List Nat) :
    (qt_xor_keyed P data key32 nonce12).length = data.length := by
  rw [qt_xor_keyed]
  rw [List.length_map, List.length_zip, qtKeystream_length]
  exact Nat.min_self _

theorem natXor_cancel (a b : Nat) : Nat.xor (Nat.xor a b) b = a :=
  Nat.xor_cancel_right b a

theorem mask_twice (data : List Nat) :
    ∀ ks : List Nat,
      ((((data.zip ks).map (fun ab => Nat.xor ab.1 ab.2)).zip ks).map
          (fun ab => Nat.xor ab.1 ab.2))
        = data.take ks.length := by
  induction data with
  | nil => intro ks; simp
  | cons a as ih =>
    intro ks
    cases ks with
    | nil => simp
    | cons b bs =>
      simp only [List.zip_cons_cons, List.map_cons, List.length_cons, List.take_succ_cons]
      rw [ih bs, natXor_cancel]

/-- The mask is exactly self-inverse: the second application derives the
same keystream (same key, nonce and length) and XOR cancels. -/
theorem qt_xor_keyed_involutive (P : Prims) (data key32 nonce12 : List Nat) :
    qt_xor_keyed P (qt_xor_keyed P data key32 nonce12) key32 nonce12 = data := by
  have hlen : (qt_xor_keyed P data key32 nonce12).length = data.length :=
    qt_xor_keyed_length P data key32 nonce12
  conv_lhs => rw [qt_xor_keyed, hlen]
  rw [qt_xor_keyed]
  rw [mask_twice, qtKeystream_length, List.take_length]

/-! ### Parsing lemmas for decrypt -/

theorem lite_magic_length : Lite.HEADER_MAGIC.length = 12 := rfl

theorem cipher_magic_length : Cipher.HEADER_MAGIC.length = 7 := rfl

/-- Decrypting a syntactically well-formed lite frame reduces to the
AEAD open followed by the unmask. -/
theorem lite_decrypt_append (P : Prims) (key nonce s : List Nat)
    (hn : nonce.length = NONCE_LEN) :
    Lite.decrypt P key (Lite.HEADER_MAGIC ++ nonce ++ s)
      = match P.aeadOpen key nonce [] s with
        | none => Except.error "Decryption failed"
        | some m => Except.ok (qt_xor_keyed P m key nonce) := by
  have hnotshort :
      ¬ (Lite.HEADER_MAGIC ++ (nonce ++ s)).length
          < Lite.HEADER_MAGIC.length + NONCE_LEN := by
    rw [List.length_append, List.length_append, hn, lite_magic_length]
    simp only [NONCE_LEN]
    omega
  have htake2 : (nonce ++ s).take NONCE_LEN = nonce := List.take_left' hn
  have hdrop2 : (nonce ++ s).drop NONCE_LEN = s := List.drop_left' hn
  rw [List.append_assoc]
  simp only [Lite.decrypt]
  rw [if_neg hnotshort, List.take_left, List.drop_left,
    if_neg (not_not_intro rfl), htake2, hdrop2, if_neg (not_not_intro hn)]

/-- Decrypting any lite frame that passes the length and header gates
reduces to the AEAD open on the nonce/data split, followed by the
unmask; in particular the nonce length check always passes. -/
theorem lite_decrypt_cases (P : Prims) (key frame : List Nat)
    (h1 : ¬ frame.length < Lite.HEADER_MAGIC.length + NONCE_LEN)
    (h2 : frame.take Lite.HEADER_MAGIC.length = Lite.HEADER_MAGIC) :
    Lite.decrypt P key frame
      = match P.aeadOpen key ((frame.drop Lite.HEADER_MAGIC.length).take NONCE_LEN) []
            ((frame.drop Lite.HEADER_MAGIC.length).drop NONCE_LEN) with
        | none => Except.error "Decryption failed"
        | some m =>
            Except.ok
              (qt_xor_keyed P m key
                ((frame.drop Lite.HEADER_MAGIC.length).take NONCE_LEN)) := by
  have hlen : ((frame.drop Lite.HEADER_MAGIC.length).take NONCE_LEN).length = NONCE_LEN := by
    rw [List.length_take, List.length_drop, lite_magic_length]
    rw [lite_magic_length] at h1
    simp only [NONCE_LEN] at h1 ⊢
    omega
  simp only [Lite.decrypt]
  rw [if_neg h1, if_neg (not_not_intro h2), if_neg (not_not_intro hlen)]

/-- Same reduction for the cipher.rs module. -/
theorem cipher_decrypt_cases (P : Prims) (key frame : List Nat)
    (h1 : ¬ frame.length < Cipher.HEADER_MAGIC.length + NONCE_LEN)
    (h2 : frame.take Cipher.HEADER_MAGIC.length = Cipher.HEADER_MAGIC) :
    Cipher.decrypt P key frame
      = match P.aeadOpen key ((frame.drop Cipher.HEADER_MAGIC.length).take NONCE_LEN) []
            ((frame.drop Cipher.HEADER_MAGIC.length).drop NONCE_LEN) with
        | none => Except.error "Decryption failed"
        | some m => Except.ok m := by
  have hlen : ((frame.drop Cipher.HEADER_MAGIC.length).take NONCE_LEN).length = NONCE_LEN := by
    rw [List.length_take, List.length_drop, cipher_magic_length]
    rw [cipher_magic_length] at h1
    simp only [NONCE_LEN] at h1 ⊢
    omega
  simp only [Cipher.decrypt]
  rw [if_neg h1, if_neg (not_not_intro h2), if_neg (not_not_intro hlen)]

theorem errNe (a b : String) (h : a ≠ b) :
    (Except.error a : Except String (List Nat)) ≠ Except.error b := by
  intro hh
  injection hh with hab
  exact h hab

theorem lite_decrypt_short (P : Prims) (key frame : List Nat)
    (h : frame.length < Lite.HEADER_MAGIC.length + NONCE_LEN) :
    Lite.decrypt P key frame = Except.error "Ciphertext too short" := by
  simp only [Lite.decrypt]
  rw [if_pos h]

theorem lite_decrypt_badheader (P : Prims) (key frame : List Nat)
    (h1 : ¬ frame.length < Lite.HEADER_MAGIC.length + NONCE_LEN)
    (h2 : frame.take Lite.HEADER_MAGIC.length ≠ Lite.HEADER_MAGIC) :
    Lite.decrypt P key frame = Except.error "Invalid header" := by
  simp only [Lite.decrypt]
  rw [if_neg h1, if_pos h2]

theorem cipher_decrypt_short (P : Prims) (key frame : List Nat)
    (h : frame.length < Cipher.HEADER_MAGIC.length + NONCE_LEN) :
    Cipher.decrypt P key frame = Except.error "Ciphertext too short" := by
  simp only [Cipher.decrypt]
  rw [if_pos h]

/-! ### Claim theorems -/

/-- Claim C1.  Round-trip: for every 32-byte key, every 12-byte nonce
drawn at seal time and every byte payload (including the empty one),
decrypting the frame produced by `encrypt_with_meta` under the same key
succeeds and returns exactly the payload, given the AEAD interface
facts carried by `Prims`. -/
theorem lite_roundtrip (P : Prims) (key nonce pt : List Nat) (ts : Nat)
    (_hk : key.length = KEY_LEN) (hn : nonce.length = NONCE_LEN) :
    Lite.decrypt P key (Lite.encrypt_with_meta P key nonce ts pt).1 = Except.ok pt := by
  have he : (Lite.encrypt_with_meta P key nonce ts pt).1
      = Lite.HEADER_MAGIC ++ nonce ++ P.aeadSeal key nonce [] (qt_xor_keyed P pt key nonce) :=
    rfl
  rw [he, lite_decrypt_append P key nonce _ hn, P.open_seal]
  show Except.ok (qt_xor_keyed P (qt_xor_keyed P pt key nonce) key nonce) = Except.ok pt
  rw [qt_xor_keyed_involutive]

theorem lite_roundtrip_witness :
    (List.replicate KEY_LEN 0).length = KEY_LEN
    ∧ (List.replicate NONCE_LEN 0).length = NONCE_LEN
    ∧ Lite.decrypt toyPrims (List.replicate KEY_LEN 0)
        (Lite.encrypt_with_meta toyPrims (List.replicate KEY_LEN 0)
          (List.replicate NONCE_LEN 0) 0 [104, 105]).1 = Except.ok [104, 105] :=
  ⟨by decide, by decide,
   lite_roundtrip toyPrims (List.replicate KEY_LEN 0) (List.replicate NONCE_LEN 0)
     [104, 105] 0 (by decide) (by decide)⟩

/-- Claim C2.  Self-inverse masking: applying `qt_xor_keyed` twice with
the same key and nonce is the identity, exactly, for every byte
sequence (the keystream depends only on key, nonce and length, and XOR
is involutive). -/
theorem qt_xor_keyed_self_inverse (P : Prims) (data key nonce : List Nat)
    (_hk : key.length = KEY_LEN) (_hn : nonce.length = NONCE_LEN) :
    qt_xor_keyed P (qt_xor_keyed P data key nonce) key nonce = data :=
  qt_xor_keyed_involutive P data key nonce

theorem qt_xor_keyed_self_inverse_witness :
    (List.replicate KEY_LEN 3).length = KEY_LEN
    ∧ (List.replicate NONCE_LEN 4).length = NONCE_LEN
    ∧ qt_xor_keyed toyPrims
        (qt_xor_keyed toyPrims [10, 20, 30] (List.replicate KEY_LEN 3)
          (List.replicate NONCE_LEN 4))
        (List.replicate KEY_LEN 3) (List.replicate NONCE_LEN 4) = [10, 20, 30] :=
  ⟨by decide, by decide,
   qt_xor_keyed_self_inverse toyPrims [10, 20, 30] (List.replicate KEY_LEN 3)
     (List.replicate NONCE_LEN 4) (by decide) (by decide)⟩

/-- Claim C3.  Uniform authentication failure: whenever the AEAD open
step rejects the ciphertext-and-tag region of a header-valid frame —
which covers frames sealed under a different key and any bit flip in
that region — `decrypt` returns the single opaque error
"Decryption failed", never a plaintext and never any other error. -/
theorem lite_auth_failure_uniform (P : Prims) (key nonce data : List Nat)
    (hn : nonce.length = NONCE_LEN)
    (hopen : P.aeadOpen key nonce [] data = none) :
    Lite.decrypt P key (Lite.HEADER_MAGIC ++ nonce ++ data)
      = Except.error "Decryption failed" := by
  rw [lite_decrypt_append P key nonce data hn, hopen]

theorem lite_auth_failure_uniform_witness :
    (List.replicate NONCE_LEN 0).length = NONCE_LEN
    ∧ toyPrims.aeadOpen (List.replicate KEY_LEN 0) (List.replicate NONCE_LEN 0) []
        (List.replicate 20 1) = none
    ∧ Lite.decrypt toyPrims (List.replicate KEY_LEN 0)
        (Lite.HEADER_MAGIC ++ List.replicate NONCE_LEN 0 ++ List.replicate 20 1)
        = Except.error "Decryption failed" :=
  ⟨by decide, by decide,
   lite_auth_failure_uniform toyPrims (List.replicate KEY_LEN 0)
     (List.replicate NONCE_LEN 0) (List.replicate 20 1) (by decide) (by decide)⟩

/-- Claim C4.  The malformed-frame gate: `decrypt` answers
"Ciphertext too short" exactly when the input is shorter than
`|format_tag| + 12`, answers "Invalid header" exactly when it is long
enough but its leading bytes differ from the format tag, and in both
cases the result does not depend on the cryptographic primitives at
all (no authenticated decryption is attempted). -/
theorem lite_malformed_gate (P : Prims) (key frame : List Nat) :
    (Lite.decrypt P key frame = Except.error "Ciphertext too short"
        ↔ frame.length < Lite.HEADER_MAGIC.length + NONCE_LEN)
    ∧ (Lite.decrypt P key frame = Except.error "Invalid header"
        ↔ ¬ frame.length < Lite.HEADER_MAGIC.length + NONCE_LEN
            ∧ frame.take Lite.HEADER_MAGIC.length ≠ Lite.HEADER_MAGIC)
    ∧ ((frame.length < Lite.HEADER_MAGIC.length + NONCE_LEN
          ∨ frame.take Lite.HEADER_MAGIC.length ≠ Lite.HEADER_MAGIC) →
        ∀ Q : Prims, Lite.decrypt Q key frame = Lite.decrypt P key frame) := by
  by_cases h1 : frame.length < Lite.HEADER_MAGIC.length + NONCE_LEN
  · refine ⟨⟨fun _ => h1, fun _ => lite_decrypt_short P key frame h1⟩, ⟨?_, ?_⟩, ?_⟩
    · rw [lite_decrypt_short P key frame h1]
      intro h
      exact absurd h (errNe _ _ (by decide))
    · intro h
      exact absurd h1 h.1
    · intro _ Q
      rw [lite_decrypt_short Q key frame h1, lite_decrypt_short P key frame h1]
  · by_cases h2 : frame.take Lite.HEADER_MAGIC.length = Lite.HEADER_MAGIC
    · have hc := lite_decrypt_cases P key frame h1 h2
      refine ⟨⟨?_, fun h => absurd h h1⟩, ⟨?_, fun h => absurd h2 h.2⟩, ?_⟩
      · rw [hc]
        cases P.aeadOpen key ((frame.drop Lite.HEADER_MAGIC.length).take NONCE_LEN) []
            ((frame.drop Lite.HEADER_MAGIC.length).drop NONCE_LEN) with
        | none => intro h; exact absurd h (errNe _ _ (by decide))
        | some m => intro h; exact Except.noConfusion h
      · rw [hc]
        cases P.aeadOpen key ((frame.drop Lite.HEADER_MAGIC.length).take NONCE_LEN) []
            ((frame.drop Lite.HEADER_MAGIC.length).drop NONCE_LEN) with
        | none => intro h; exact absurd h (errNe _ _ (by decide))
        | some m => intro h; exact Except.noConfusion h
      · intro hor
        exact absurd h2 (hor.resolve_left h1)
    · refine ⟨⟨?_, fun h => absurd h h1⟩,
        ⟨fun _ => ⟨h1, h2⟩, fun _ => lite_decrypt_badheader P key frame h1 h2⟩, ?_⟩
      · rw [lite_decrypt_badheader P key frame h1 h2]
        intro h
        exact absurd h (errNe _ _ (by decide))
      · intro _ Q
        rw [lite_decrypt_badheader Q key frame h1 h2,
          lite_decrypt_badheader P key frame h1 h2]

theorem lite_malformed_gate_witness :
    ([0] : List Nat).length < Lite.HEADER_MAGIC.length + NONCE_LEN
    ∧ Lite.decrypt toyPrims [] [0] = Except.error "Ciphertext too short" :=
  ⟨by decide, ((lite_malformed_gate toyPrims [] [0]).1).mpr (by decide)⟩

/-- Claim C5.  Frame composition and length of a seal: the frame is
`HEADER_MAGIC || nonce || aeadSeal(key, nonce, empty aad, masked
plaintext)`, begins with the format tag, and has total length
`|format_tag| + 12 + |plaintext| + 16`. -/
theorem lite_seal_frame (P : Prims) (key nonce pt : List Nat) (ts : Nat)
    (hn : nonce.length = NONCE_LEN) :
    (Lite.encrypt_with_meta P key nonce ts pt).1
        = Lite.HEADER_MAGIC ++ nonce ++ P.aeadSeal key nonce [] (qt_xor_keyed P pt key nonce)
    ∧ (Lite.encrypt_with_meta P key nonce ts pt).1.take Lite.HEADER_MAGIC.length
        = Lite.HEADER_MAGIC
    ∧ (Lite.encrypt_with_meta P key nonce ts pt).1.length
        = Lite.HEADER_MAGIC.length + NONCE_LEN + pt.length + TAG_LEN := by
  have he : (Lite.encrypt_with_meta P key nonce ts pt).1
      = Lite.HEADER_MAGIC ++ nonce ++ P.aeadSeal key nonce [] (qt_xor_keyed P pt key nonce) :=
    rfl
  refine ⟨he, ?_, ?_⟩
  · rw [he, List.append_assoc]
    exact List.take_left _ _
  · rw [he, List.length_append, List.length_append, P.seal_len, qt_xor_keyed_length, hn]
    omega

theorem lite_seal_frame_witness :
    (List.replicate NONCE_LEN 1).length = NONCE_LEN
    ∧ ((Lite.encrypt_with_meta toyPrims (List.replicate KEY_LEN 0)
          (List.replicate NONCE_LEN 1) 5 [7, 8, 9]).1
        = Lite.HEADER_MAGIC ++ List.replicate NONCE_LEN 1
            ++ toyPrims.aeadSeal (List.replicate KEY_LEN 0) (List.replicate NONCE_LEN 1) []
                (qt_xor_keyed toyPrims [7, 8, 9] (List.replicate KEY_LEN 0)
                  (List.replicate NONCE_LEN 1))
      ∧ (Lite.encrypt_with_meta toyPrims (List.replicate KEY_LEN 0)
            (List.replicate NONCE_LEN 1) 5 [7, 8, 9]).1.take Lite.HEADER_MAGIC.length
          = Lite.HEADER_MAGIC
      ∧ (Lite.encrypt_with_meta toyPrims (List.replicate KEY_LEN 0)
            (List.replicate NONCE_LEN 1) 5 [7, 8, 9]).1.length
          = Lite.HEADER_MAGIC.length + NONCE_LEN + ([7, 8, 9] : List Nat).length + TAG_LEN) :=
  ⟨by decide,
   lite_seal_frame toyPrims (List.replicate KEY_LEN 0) (List.replicate NONCE_LEN 1)
     [7, 8, 9] 5 (by decide)⟩

/-- Claim C6.  Keystream contract: the keystream used by
`qt_xor_keyed` has exactly the requested length (zero included), it is
a pure function of key, nonce and length (a total Lean function, so
deterministic and never failing), it is by definition the byte stream
of a ChaCha20-style generator seeded with the 32-byte HKDF-expand
output (label `QT_DOMAIN`) of the HKDF-extract of salt = nonce and
input keying material = key, drawn in generation order by `ksFill`;
consequently the mask output has exactly the length of its data. -/
theorem qt_keystream_contract (P : Prims) (key nonce data : List Nat) (len : Nat) :
    (qtKeystream P key nonce len).length = len
    ∧ qtKeystream P key nonce len
        = ksFill (P.chachaWord (P.hkdfExpand (P.hkdfExtract nonce key) QT_DOMAIN)) 0 len
    ∧ (P.hkdfExpand (P.hkdfExtract nonce key) QT_DOMAIN).length = 32
    ∧ (qt_xor_keyed P data key nonce).length = data.length :=
  ⟨qtKeystream_length P key nonce len, rfl,
   P.expand_len (P.hkdfExtract nonce key) QT_DOMAIN,
   qt_xor_keyed_length P data key nonce⟩

/-- Claim C7.  The returned `SealMeta` is the seal-time timestamp
together with the lowercase-hex digest of exactly the returned frame;
and `decrypt` never consults the hash function at all — its result is
unchanged under an arbitrary replacement of the `sha256` collaborator,
so it is a function of the frame bytes and the key only. -/
theorem lite_sealmeta_spec (P : Prims) (key nonce pt frame : List Nat) (ts : Nat)
    (f : List Nat → List Nat) :
    (Lite.encrypt_with_meta P key nonce ts pt).2
        = ⟨ts, hexOfBytes (P.sha256 (Lite.encrypt_with_meta P key nonce ts pt).1)⟩
    ∧ Lite.decrypt
        ⟨P.hkdfExtract, P.hkdfExpand, P.chachaWord, P.aeadSeal, P.aeadOpen, f,
         P.expand_len, P.seal_len, P.open_seal, P.open_short⟩ key frame
        = Lite.decrypt P key frame :=
  ⟨rfl, rfl⟩


/-- Claim C8 refutation at a concrete input: the 24-byte input
`HEADER_MAGIC ++ 12 zero bytes` is shorter than the minimum possible
frame (format tag + nonce + authentication tag = 40 bytes), yet decrypt
reports the authentication-failure outcome "Decryption failed", not a
malformed-frame outcome: the length gate only requires
`|format_tag| + 12` bytes, so this input reaches the AEAD open. -/
theorem lite_short_frame_counterexample :
    (Lite.HEADER_MAGIC ++ List.replicate NONCE_LEN 0).length
        < Lite.HEADER_MAGIC.length + NONCE_LEN + TAG_LEN
    ∧ Lite.decrypt toyPrims (List.replicate KEY_LEN 0)
        (Lite.HEADER_MAGIC ++ List.replicate NONCE_LEN 0)
        = Except.error "Decryption failed"
    ∧ Lite.decrypt toyPrims (List.replicate KEY_LEN 0)
        (Lite.HEADER_MAGIC ++ List.replicate NONCE_LEN 0)
        ≠ Except.error "Ciphertext too short"
    ∧ Lite.decrypt toyPrims (List.replicate KEY_LEN 0)
        (Lite.HEADER_MAGIC ++ List.replicate NONCE_LEN 0)
        ≠ Except.error "Invalid header" := by
  have h : Lite.decrypt toyPrims (List.replicate KEY_LEN 0)
      (Lite.HEADER_MAGIC ++ List.replicate NONCE_LEN 0)
      = Except.error "Decryption failed" := rfl
  refine ⟨by decide, h, ?_, ?_⟩
  · rw [h]
    exact errNe _ _ (by decide)
  · rw [h]
    exact errNe _ _ (by decide)

/-- Claim C8 (amended).  Inputs shorter than `|format_tag| + 12` bytes
are reported as the malformed-frame outcome "Ciphertext too short"
before any cryptographic work (the result is the same for every choice
of primitives); a header-valid input that is long enough for the gate
but still shorter than the minimum complete frame
`|format_tag| + 12 + 16` reaches the AEAD open and is reported as the
uniform authentication failure "Decryption failed" instead. -/
theorem lite_short_frame_amended (P : Prims) (key frame : List Nat) :
    (frame.length < Lite.HEADER_MAGIC.length + NONCE_LEN →
       ∀ Q : Prims, Lite.decrypt Q key frame = Except.error "Ciphertext too short")
    ∧ (frame.take Lite.HEADER_MAGIC.length = Lite.HEADER_MAGIC →
       ¬ frame.length < Lite.HEADER_MAGIC.length + NONCE_LEN →
       frame.length < Lite.HEADER_MAGIC.length + NONCE_LEN + TAG_LEN →
       Lite.decrypt P key frame = Except.error "Decryption failed") := by
  constructor
  · intro h Q
    exact lite_decrypt_short Q key frame h
  · intro h2 h1 h3
    rw [lite_decrypt_cases P key frame h1 h2]
    have hlt : ((frame.drop Lite.HEADER_MAGIC.length).drop NONCE_LEN).length < TAG_LEN := by
      rw [List.length_drop, List.length_drop, lite_magic_length]
      rw [lite_magic_length] at h1 h3
      simp only [NONCE_LEN, TAG_LEN] at h1 h3 ⊢
      omega
    rw [P.open_short key _ [] _ hlt]

theorem lite_short_frame_amended_witness :
    ([0] : List Nat).length < Lite.HEADER_MAGIC.length + NONCE_LEN
    ∧ Lite.decrypt toyPrims [] [0] = Except.error "Ciphertext too short" :=
  ⟨by decide, (lite_short_frame_amended toyPrims [] [0]).1 (by decide) toyPrims⟩

/-- Claim C9 refutation at a concrete input: the cipher.rs module does
NOT seal `tag || nonce || AEAD(plaintext)` — it resizes the plaintext
buffer by `tag_len` zero bytes before `seal_in_place_append_tag`, so
the AEAD input is the plaintext plus 16 zero bytes and the frame is 16
bytes longer than the claimed shape (51 versus 35 bytes here for the
empty plaintext). -/
theorem modules_equiv_counterexample :
    (Cipher.encrypt_with_meta toyPrims (List.replicate KEY_LEN 0)
        (List.replicate NONCE_LEN 0) 0 []).1
      ≠ Cipher.HEADER_MAGIC ++ List.replicate NONCE_LEN 0
          ++ toyPrims.aeadSeal (List.replicate KEY_LEN 0) (List.replicate NONCE_LEN 0) [] [] := by
  decide

/-- Claim C9 (amended).  The two modules are structurally identical up
to three differences: the format-tag constant ("SQEP3.9" versus
"SQEP4.0-LITE"), the presence of the `qt_xor_keyed` masking layer, and
cipher.rs additionally zero-padding the plaintext by one tag length
before AEAD sealing.  Concretely: the alternate seal is
`tag_A || nonce || AEAD(plaintext ++ 16 zero bytes)` where the primary
seal is `tag_B || nonce || AEAD(mask(plaintext))`; and on any common
remainder after the header the alternate decrypt equals the primary
decrypt without the final unmask step. -/
theorem modules_equiv_amended (P : Prims) (key nonce pt rest : List Nat) (ts : Nat) :
    (Cipher.encrypt_with_meta P key nonce ts pt).1
        = Cipher.HEADER_MAGIC ++ nonce
            ++ P.aeadSeal key nonce [] (pt ++ List.replicate TAG_LEN 0)
    ∧ (Lite.encrypt_with_meta P key nonce ts pt).1
        = Lite.HEADER_MAGIC ++ nonce
            ++ P.aeadSeal key nonce [] (qt_xor_keyed P pt key nonce)
    ∧ Lite.decrypt P key (Lite.HEADER_MAGIC ++ rest)
        = Except.map (fun m => qt_xor_keyed P m key (rest.take NONCE_LEN))
            (Cipher.decrypt P key (Cipher.HEADER_MAGIC ++ rest)) := by
  refine ⟨rfl, rfl, ?_⟩
  by_cases h1 : rest.length < NONCE_LEN
  · have haL : (Lite.HEADER_MAGIC ++ rest).length
        < Lite.HEADER_MAGIC.length + NONCE_LEN := by
      rw [List.length_append]
      omega
    have haC : (Cipher.HEADER_MAGIC ++ rest).length
        < Cipher.HEADER_MAGIC.length + NONCE_LEN := by
      rw [List.length_append]
      omega
    rw [lite_decrypt_short P key _ haL, cipher_decrypt_short P key _ haC]
    rfl
  · have hL1 : ¬ (Lite.HEADER_MAGIC ++ rest).length
        < Lite.HEADER_MAGIC.length + NONCE_LEN := by
      rw [List.length_append]
      omega
    have hC1 : ¬ (Cipher.HEADER_MAGIC ++ rest).length
        < Cipher.HEADER_MAGIC.length + NONCE_LEN := by
      rw [List.length_append]
      omega
    rw [lite_decrypt_cases P key _ hL1 (List.take_left _ _),
      cipher_decrypt_cases P key _ hC1 (List.take_left _ _),
      List.drop_left, List.drop_left]
    cases hopen : P.aeadOpen key (rest.take NONCE_LEN) [] (rest.drop NONCE_LEN) with
    | none => rfl
    | some m => rfl

/-- Claim C10.  `decrypt` is total and its result is always `ok` or one
of exactly three error strings; the "Nonce error" branch is
unreachable, because any input passing the length gate yields a nonce
slice of exactly 12 bytes; and a header-valid frame whose
ciphertext-plus-tag region is shorter than one authentication tag
still reaches the AEAD open and yields "Decryption failed", not a
malformed-frame error. -/
theorem lite_decrypt_total (P : Prims) (key frame : List Nat) :
    ((∃ pt, Lite.decrypt P key frame = Except.ok pt)
      ∨ Lite.decrypt P key frame = Except.error "Ciphertext too short"
      ∨ Lite.decrypt P key frame = Except.error "Invalid header"
      ∨ Lite.decrypt P key frame = Except.error "Decryption failed")
    ∧ Lite.decrypt P key frame ≠ Except.error "Nonce error"
    ∧ (frame.take Lite.HEADER_MAGIC.length = Lite.HEADER_MAGIC →
        ¬ frame.length < Lite.HEADER_MAGIC.length + NONCE_LEN →
        frame.length < Lite.HEADER_MAGIC.length + NONCE_LEN + TAG_LEN →
        Lite.decrypt P key frame = Except.error "Decryption failed") := by
  have hmain : (∃ pt, Lite.decrypt P key frame = Except.ok pt)
      ∨ Lite.decrypt P key frame = Except.error "Ciphertext too short"
      ∨ Lite.decrypt P key frame = Except.error "Invalid header"
      ∨ Lite.decrypt P key frame = Except.error "Decryption failed" := by
    by_cases h1 : frame.length < Lite.HEADER_MAGIC.length + NONCE_LEN
    · exact Or.inr (Or.inl (lite_decrypt_short P key frame h1))
    · by_cases h2 : frame.take Lite.HEADER_MAGIC.length = Lite.HEADER_MAGIC
      · have hc := lite_decrypt_cases P key frame h1 h2
        cases hopen : P.aeadOpen key ((frame.drop Lite.HEADER_MAGIC.length).take NONCE_LEN)
            [] ((frame.drop Lite.HEADER_MAGIC.length).drop NONCE_LEN) with
        | none =>
            rw [hopen] at hc
            exact Or.inr (Or.inr (Or.inr hc))
        | some m =>
            rw [hopen] at hc
            exact Or.inl ⟨_, hc⟩
      · exact Or.inr (Or.inr (Or.inl (lite_decrypt_badheader P key frame h1 h2)))
  refine ⟨hmain, ?_, ?_⟩
  · rcases hmain with ⟨pt, h⟩ | h | h | h
    · rw [h]
      exact fun hh => Except.noConfusion hh
    · rw [h]
      exact errNe _ _ (by decide)
    · rw [h]
      exact errNe _ _ (by decide)
    · rw [h]
      exact errNe _ _ (by decide)
  · intro h2 h1 h3
    rw [lite_decrypt_cases P key frame h1 h2]
    have hlt : ((frame.drop Lite.HEADER_MAGIC.length).drop NONCE_LEN).length < TAG_LEN := by
      rw [List.length_drop, List.length_drop, lite_magic_length]
      rw [lite_magic_length] at h1 h3
      simp only [NONCE_LEN, TAG_LEN] at h1 h3 ⊢
      omega
    rw [P.open_short key _ [] _ hlt]

theorem lite_decrypt_total_witness :
    (Lite.HEADER_MAGIC ++ List.replicate NONCE_LEN 2).take Lite.HEADER_MAGIC.length
        = Lite.HEADER_MAGIC
    ∧ ¬ (Lite.HEADER_MAGIC ++ List.replicate NONCE_LEN 2).length
        < Lite.HEADER_MAGIC.length + NONCE_LEN
    ∧ (Lite.HEADER_MAGIC ++ List.replicate NONCE_LEN 2).length
        < Lite.HEADER_MAGIC.length + NONCE_LEN + TAG_LEN
    ∧ Lite.decrypt toyPrims (List.replicate KEY_LEN 0)
        (Lite.HEADER_MAGIC ++ List.replicate NONCE_LEN 2)
        = Except.error "Decryption failed" :=
  ⟨by decide, by decide, by decide,
   (lite_decrypt_total toyPrims (List.replicate KEY_LEN 0)
       (Lite.HEADER_MAGIC ++ List.replicate NONCE_LEN 2)).2.2
     (by decide) (by decide) (by decide)⟩
